import Mathlib

/-!
# Verification of the spacemouse-desktop event-routing and profile engine

Shallow embedding of `src/spacemouse-desktop.c`.  C `double` arithmetic is
idealized as arithmetic on `ℝ` (every finite double is a real number and
`pow` becomes `Real.rpow`), C `int` and `long long` become `ℤ`, C strings
become `String`.  Each definition mirrors one function of the source file
and keeps its name.
-/

namespace Spacemouse

/-- `apply_curve` (spacemouse-desktop.c, lines 122-132): deadzone filter,
normalisation against the fixed maximum raw magnitude 350, two sequential
clamping steps, exponent shaping via `pow`, scaling, with the sign taken
from the test `v > 0`. -/
noncomputable def apply_curve (raw deadzone : ℤ) (exponent scale : ℝ) : ℝ :=
  let v : ℝ := (raw : ℝ)
  if |v| < (deadzone : ℝ) then 0
  else
    let s : ℝ := if v > 0 then 1 else -1
    let norm0 : ℝ := (|v| - (deadzone : ℝ)) / (350 - (deadzone : ℝ))
    let norm1 : ℝ := if norm0 > 1 then 1 else norm0
    let norm2 : ℝ := if norm1 < 0 then 0 else norm1
    s * norm2 ^ exponent * scale

/-- The curve contract exactly as claim C1 words it, reading `sign(raw)` as
the mathematical sign function (so `sign 0 = 0`). -/
noncomputable def curve_spec (raw deadzone : ℤ) (exponent scale : ℝ) : ℝ :=
  if |raw| < deadzone then 0
  else (Int.sign raw : ℝ) *
    (min 1 (max 0 ((((|raw| : ℤ) : ℝ) - (deadzone : ℝ)) / (350 - (deadzone : ℝ))))) ^ exponent
      * scale

/-- The curve contract with the sign factor amended to match the source:
`+1` for `raw > 0` and `-1` for `raw ≤ 0` (this differs from `curve_spec`
only at `raw = 0`, which reaches the non-deadzone branch only when the
deadzone is nonpositive). -/
noncomputable def curve_spec_signed (raw deadzone : ℤ) (exponent scale : ℝ) : ℝ :=
  if |raw| < deadzone then 0
  else (if 0 < raw then (1 : ℝ) else -1) *
    (min 1 (max 0 ((((|raw| : ℤ) : ℝ) - (deadzone : ℝ)) / (350 - (deadzone : ℝ))))) ^ exponent
      * scale

/-- The specification's notion of sign preservation: the shaped value is
zero or has the strict sign of the raw sample. -/
def same_sign_or_zero (raw : ℤ) (x : ℝ) : Prop :=
  x = 0 ∨ (0 < raw ∧ 0 < x) ∨ (raw < 0 ∧ x < 0)

/-- C-style cast of a `double` to `int`: truncation toward zero. -/
noncomputable def truncz (x : ℝ) : ℤ := if 0 ≤ x then ⌊x⌋ else ⌈x⌉

/-- Per-axis fractional accumulator state (`struct scroll_acc`, lines 88-90). -/
structure ScrollAcc where
  acc_x : ℝ
  acc_y : ℝ
  acc_z : ℝ

/-- `scroll_acc_reset` (lines 553-556): all three remainders become zero. -/
def scroll_acc_reset : ScrollAcc := ⟨0, 0, 0⟩

/-- `scroll_acc_consume` (lines 558-563): `val = (int)*acc; *acc -= val;
return val` — returns the emitted integer and the new remainder. -/
noncomputable def scroll_acc_consume (acc : ℝ) : ℤ × ℝ :=
  (truncz acc, acc - (truncz acc : ℝ))

/-- One accumulator round of the main loop: add the incoming delta to the
remainder, then consume.  The state is (sum of emitted integers, remainder). -/
noncomputable def consume_step (st : ℤ × ℝ) (d : ℝ) : ℤ × ℝ :=
  ((st.1 + (scroll_acc_consume (st.2 + d)).1), (scroll_acc_consume (st.2 + d)).2)

/-- Feeding a whole delta sequence through the accumulator, starting from a
zero remainder. -/
noncomputable def consume_run (ds : List ℝ) : ℤ × ℝ := ds.foldl consume_step (0, 0)

/-- `enum axis_action` (lines 53-59). -/
inductive AxisAct
  | act_none
  | scroll_h
  | scroll_v
  | zoom
  | desktop_switch
deriving DecidableEq

/-- `enum btn_action` (lines 61-65). -/
inductive BtnAct
  | btnact_none
  | overview
  | show_desktop
deriving DecidableEq

/-- `parse_axis_action` (lines 365-373). -/
def parse_axis_action (s : String) : AxisAct :=
  if s = "scroll_h" then .scroll_h
  else if s = "scroll_v" then .scroll_v
  else if s = "zoom" then .zoom
  else if s = "desktop_switch" then .desktop_switch
  else .act_none

/-- `parse_btn_action` (lines 375-381). -/
def parse_btn_action (s : String) : BtnAct :=
  if s = "overview" then .overview
  else if s = "show_desktop" then .show_desktop
  else .btnact_none

/-- `struct config` (lines 67-79). -/
structure Config where
  deadzone : ℤ
  scroll_speed : ℝ
  scroll_exponent : ℝ
  zoom_speed : ℝ
  dswitch_threshold : ℤ
  dswitch_cooldown_ms : ℤ
  axis_map : Fin 6 → AxisAct
  btn_map : Fin 16 → BtnAct
  invert_scroll_x : Bool
  invert_scroll_y : Bool
  sensitivity : ℝ

/-- `config_defaults` (lines 383-401) with the constants of lines 43-49. -/
def config_defaults : Config where
  deadzone := 15
  scroll_speed := 3
  scroll_exponent := 2
  zoom_speed := 2
  dswitch_threshold := 200
  dswitch_cooldown_ms := 500
  axis_map := ![.scroll_h, .scroll_v, .zoom, .act_none, .desktop_switch, .act_none]
  btn_map := fun i => if i = 0 then .overview else if i = 1 then .show_desktop else .btnact_none
  invert_scroll_x := false
  invert_scroll_y := false
  sensitivity := 1

/-- C `isspace` over the default locale's six whitespace characters. -/
def c_isspace (c : Char) : Bool :=
  c == ' ' || c == '\t' || c == '\n' || c == '\r' || c.toNat == 11 || c.toNat == 12

/-- Digit-consuming loop of C `atoi`: accumulate decimal digits, stop at the
first non-digit. -/
def atoi_digits : List Char → ℤ → ℤ
  | [], acc => acc
  | c :: cs, acc =>
    if c.isDigit then atoi_digits cs (acc * 10 + ((c.toNat : ℤ) - 48)) else acc

/-- C `atoi`: skip leading whitespace, optional sign, then decimal digits;
a string with no leading digits converts to 0. -/
def atoi (s : String) : ℤ :=
  match s.data.dropWhile c_isspace with
  | '-' :: cs => - atoi_digits cs 0
  | '+' :: cs => atoi_digits cs 0
  | cs => atoi_digits cs 0

/-- The `axis_mapping` JSON object: which of the six keys are present, and
the string each carries (lines 449-464). -/
structure AxisMapObj where
  tx : Option String
  ty : Option String
  tz : Option String
  rx : Option String
  ry : Option String
  rz : Option String

/-- Key presence per axis slot, in the fixed order tx, ty, tz, rx, ry, rz. -/
def AxisMapObj.slot (am : AxisMapObj) : Fin 6 → Option String :=
  ![am.tx, am.ty, am.tz, am.rx, am.ry, am.rz]

/-- A profile JSON object, field by field: `none` models an absent key,
`some v` a present key with value `v` (lines 419-491).  `button_mapping`
keeps its keys as raw strings because the source converts them with
`atoi`. -/
structure ProfileObj where
  deadzone : Option ℤ
  scroll_speed : Option ℝ
  scroll_exponent : Option ℝ
  zoom_speed : Option ℝ
  dswitch_threshold : Option ℤ
  dswitch_cooldown_ms : Option ℤ
  invert_scroll_x : Option Bool
  invert_scroll_y : Option Bool
  sensitivity : Option ℝ
  axis_mapping : Option AxisMapObj
  button_mapping : Option (List (String × String))
  match_wm_class : Option (List String)

/-- One iteration of the `button_mapping` loop (lines 468-476): the key is
converted with `atoi`; indices in `[0, 16)` overwrite the entry, all other
indices are ignored. -/
def apply_btn_entry (m : Fin 16 → BtnAct) (kv : String × String) : Fin 16 → BtnAct :=
  if 0 ≤ atoi kv.1 ∧ atoi kv.1 < 16 then
    fun i => if ((i : ℕ) : ℤ) = atoi kv.1 then parse_btn_action kv.2 else m i
  else m

/-- The `axis_mapping` block (lines 449-464): each present key overwrites
its slot, absent keys leave the inherited value. -/
def apply_axis_map (m : Fin 6 → AxisAct) (am : AxisMapObj) : Fin 6 → AxisAct :=
  fun i =>
    match am.slot i with
    | some s => parse_axis_action s
    | none => m i

/-- `parse_profile_obj` (configuration part, lines 419-477): start from the
inheritance base (the given defaults, or the built-in defaults when the
base is absent) and overwrite exactly the fields present in the object. -/
def parse_profile_obj (obj : ProfileObj) (defaults : Option Config) : Config :=
  let base := defaults.getD config_defaults
  { deadzone := obj.deadzone.getD base.deadzone
    scroll_speed := obj.scroll_speed.getD base.scroll_speed
    scroll_exponent := obj.scroll_exponent.getD base.scroll_exponent
    zoom_speed := obj.zoom_speed.getD base.zoom_speed
    dswitch_threshold := obj.dswitch_threshold.getD base.dswitch_threshold
    dswitch_cooldown_ms := obj.dswitch_cooldown_ms.getD base.dswitch_cooldown_ms
    axis_map :=
      match obj.axis_mapping with
      | some am => apply_axis_map base.axis_map am
      | none => base.axis_map
    btn_map :=
      match obj.button_mapping with
      | some entries => entries.foldl apply_btn_entry base.btn_map
      | none => base.btn_map
    invert_scroll_x := obj.invert_scroll_x.getD base.invert_scroll_x
    invert_scroll_y := obj.invert_scroll_y.getD base.invert_scroll_y
    sensitivity := obj.sensitivity.getD base.sensitivity }

/-- `match_wm_class` part of `parse_profile_obj` (lines 479-490): at most
`MAX_WM_CLASSES = 8` patterns are kept. -/
def parse_wm_classes (obj : ProfileObj) : List String :=
  (obj.match_wm_class.getD []).take 8

/-- `struct profile` (lines 81-86). -/
structure Profile where
  name : String
  wm_classes : List String
  cfg : Config

/-- A parsed configuration document: either the legacy flat single-profile
format or the multi-profile format with a `profiles` collection
(lines 507-540). -/
inductive Doc
  | flat (obj : ProfileObj)
  | multi (entries : List (String × ProfileObj))

/-- Profile 0 of a multi-profile document (lines 511-518): named
"default", seeded by the `"default"` entry when present, otherwise by the
built-in defaults. -/
def default_profile_of (entries : List (String × ProfileObj)) : Profile :=
  match entries.lookup "default" with
  | some o => ⟨"default", parse_wm_classes o, parse_profile_obj o none⟩
  | none => ⟨"default", [], config_defaults⟩

/-- The remaining-profiles loop (lines 520-534): every non-"default" entry
is parsed with profile 0's configuration as the inheritance base; the
store is capped at `MAX_PROFILES = 32` profiles counting profile 0. -/
def add_profiles (base : Config) : List (String × ProfileObj) → ℕ → List Profile
  | [], _ => []
  | (n, o) :: rest, cnt =>
    if n ≠ "default" ∧ cnt < 32 then
      ⟨n, parse_wm_classes o, parse_profile_obj o (some base)⟩ :: add_profiles base rest (cnt + 1)
    else
      add_profiles base rest cnt

/-- The profile list built from a multi-profile document. -/
def profiles_of_multi (entries : List (String × ProfileObj)) : List Profile :=
  default_profile_of entries :: add_profiles (default_profile_of entries).cfg entries 1

/-- `config_load_all` (lines 493-549): result code (always 0) and the
rebuilt profile store.  `none` models a document that could not be read or
parsed (`json_object_from_file` returned NULL): the store falls back to a
single built-in-default profile and the call still succeeds. -/
def config_load_all (doc : Option Doc) : ℤ × List Profile :=
  match doc with
  | none => (0, [⟨"default", [], config_defaults⟩])
  | some (.flat o) => (0, [⟨"default", parse_wm_classes o, parse_profile_obj o none⟩])
  | some (.multi entries) => (0, profiles_of_multi entries)

/-- First-match linear search with a running index, as both lookup loops in
the source perform it (lines 325-330 and 674-679). -/
def find_idx {α : Type} (pred : α → Bool) : List α → ℕ → Option (ℕ × α)
  | [], _ => none
  | x :: xs, i => if pred x then some (i, x) else find_idx pred xs (i + 1)

/-- ASCII `tolower`, as used by `strcasecmp`. -/
def c_tolower (c : Char) : Char :=
  if 'A' ≤ c ∧ c ≤ 'Z' then Char.ofNat (c.toNat + 32) else c

/-- Lowercasing of a whole string. -/
def str_lower (s : String) : String := String.mk (s.data.map c_tolower)

/-- `strcasecmp(a, b) == 0`: case-insensitive equality. -/
def strcaseeq (a b : String) : Bool := str_lower a == str_lower b

/-- The `PROFILE <name>` branch of `cmd_handle_client` (lines 322-339):
case-insensitive first-match lookup; on success the active index moves to
the match and the reply echoes the stored (canonical) name; on failure the
reply is the error line and the active index is unchanged. -/
def handle_profile_cmd (ps : List Profile) (active : ℕ) (name : String) : String × ℕ :=
  match find_idx (fun p => strcaseeq p.name name) ps 0 with
  | some (i, p) => ("OK " ++ p.name ++ "\n", i)
  | none => ("ERR unknown profile '" ++ name ++ "'" ++ "\n", active)

/-- The reload block of the main loop (lines 664-682): the store is rebuilt
by `config_load_all`, the active index becomes the first profile whose name
equals (exact `strcmp`) the previously active profile's name — or 0 when no
such profile exists — and the scroll accumulator is reset. -/
def reload_step (old_name : String) (doc : Option Doc) (_sacc : ScrollAcc) :
    List Profile × ℕ × ScrollAcc :=
  ((config_load_all doc).2,
   (match find_idx (fun p => p.name == old_name) ((config_load_all doc).2) 0 with
    | some (i, _) => i
    | none => 0),
   scroll_acc_reset)

/-- Direction of a desktop switch (`nextDesktop` / `previousDesktop`). -/
inductive Dir
  | next
  | prev
deriving DecidableEq

/-- The `ACT_DESKTOP_SWITCH` case of the router (lines 745-756) on one
candidate sample `(now, axis)`: fire and stamp `last = now` when the
magnitude exceeds the threshold and the cooldown has elapsed, otherwise
drop the sample and keep `last`. -/
def gate_step (thr cool last : ℤ) (sample : ℤ × ℤ) : Option Dir × ℤ :=
  if |sample.2| > thr ∧ sample.1 - last > cool then
    (some (if sample.2 > 0 then Dir.next else Dir.prev), sample.1)
  else (none, last)

/-- Running the gate over a sample sequence, collecting the fired triggers
as (time, direction) pairs. -/
def gate_run (thr cool : ℤ) : ℤ → List (ℤ × ℤ) → List (ℤ × Dir)
  | _, [] => []
  | last, s :: ss =>
    match gate_step thr cool last s with
    | (some d, l') => (s.1, d) :: gate_run thr cool l' ss
    | (none, l') => gate_run thr cool l' ss

/-- Observable output-collaborator calls of the router: virtual-device
emissions (`emit_scroll` / `emit_zoom`) and D-Bus backend calls. -/
inductive Effect
  | emitScroll (dx dy : ℤ)
  | emitZoom (dz : ℤ)
  | kwinCall (method : String)
  | kglobalaccel (shortcut : String)
  | dbusSend (method : String) (arg : Bool)
deriving DecidableEq

/-- One axis slot of the motion loop (lines 722-759).  The state is
(accumulator, last desktop-switch time, effects so far).  `dbus` tells
whether the D-Bus connection is available: `dbus_call_kwin` returns
without any call when it is absent (line 235), but the cooldown stamp is
still taken. -/
noncomputable def axis_step (c : Config) (dbus : Bool) (now : ℤ) (axes : Fin 6 → ℤ)
    (st : ScrollAcc × ℤ × List Effect) (i : Fin 6) : ScrollAcc × ℤ × List Effect :=
  match c.axis_map i with
  | .scroll_h =>
    let v0 := apply_curve (axes i) c.deadzone c.scroll_exponent c.scroll_speed * c.sensitivity
    let v := if c.invert_scroll_x then -v0 else v0
    ({ st.1 with acc_x := st.1.acc_x + v }, st.2)
  | .scroll_v =>
    let v0 := apply_curve (axes i) c.deadzone c.scroll_exponent c.scroll_speed * c.sensitivity
    let v := if c.invert_scroll_y then -v0 else v0
    ({ st.1 with acc_y := st.1.acc_y - v }, st.2)
  | .zoom =>
    let v := apply_curve (axes i) c.deadzone c.scroll_exponent c.zoom_speed * c.sensitivity
    ({ st.1 with acc_z := st.1.acc_z + v }, st.2)
  | .desktop_switch =>
    if |axes i| > c.dswitch_threshold ∧ now - st.2.1 > c.dswitch_cooldown_ms then
      (st.1, now,
        st.2.2 ++
          if dbus then
            [Effect.kwinCall (if axes i > 0 then "nextDesktop" else "previousDesktop")]
          else [])
    else st
  | .act_none => st

/-- One motion sample through the router (lines 716-768): all six axis
slots are processed, then — only when the uinput device is available
(line 761) — the three accumulators are drained once and the integer
deltas are emitted. -/
noncomputable def process_motion (c : Config) (uinput dbus : Bool) (axes : Fin 6 → ℤ)
    (sacc : ScrollAcc) (last now : ℤ) : ScrollAcc × ℤ × List Effect :=
  let st := (List.finRange 6).foldl (axis_step c dbus now axes) (sacc, last, [])
  if uinput then
    let rx := scroll_acc_consume st.1.acc_x
    let ry := scroll_acc_consume st.1.acc_y
    let rz := scroll_acc_consume st.1.acc_z
    (⟨rx.2, ry.2, rz.2⟩, st.2.1,
      st.2.2
        ++ (if rx.1 ≠ 0 ∨ ry.1 ≠ 0 then [Effect.emitScroll rx.1 ry.1] else [])
        ++ (if rz.1 ≠ 0 then [Effect.emitZoom rz.1] else []))
  else st

/-- One button sample through the router (lines 769-796).  Releases and
out-of-range button numbers are ignored.  `BTNACT_OVERVIEW` goes through
`dbus_call_kglobalaccel`, which returns without a call when the connection
is absent (line 251); the `BTNACT_SHOW_DESKTOP` case toggles the shown
state and calls `dbus_connection_send` directly, with no such check
(lines 778-792). -/
def process_button (c : Config) (dbus : Bool) (desktop_shown : Bool) (bnum : ℤ)
    (press : Bool) : List Effect × Bool :=
  if press = false then ([], desktop_shown)
  else if h : bnum < 0 ∨ 16 ≤ bnum then ([], desktop_shown)
  else
    match c.btn_map ⟨bnum.toNat, by omega⟩ with
    | .overview => ((if dbus then [Effect.kglobalaccel "ExposeAll"] else []), desktop_shown)
    | .show_desktop => ([Effect.dbusSend "showDesktop" (!desktop_shown)], !desktop_shown)
    | .btnact_none => ([], desktop_shown)

/-- A profile object with every key absent (used to instantiate the
inheritance theorem). -/
def obj_empty : ProfileObj :=
  ⟨none, none, none, none, none, none, none, none, none, none, none, none⟩

/-- A profile object that only specifies `deadzone = 42`. -/
def obj_dz42 : ProfileObj := { obj_empty with deadzone := some 42 }

/-- A profile object whose `button_mapping` has the non-numeric key
`"foo"`. -/
def obj_foo : ProfileObj := { obj_empty with button_mapping := some [("foo", "show_desktop")] }

/-- A profile object that specifies `button_mapping = {"3": "overview"}`
and nothing else. -/
def obj_btn3 : ProfileObj := { obj_empty with button_mapping := some [("3", "overview")] }

/-- A default configuration that differs from the built-in defaults only at
button 5 (used to exhibit that a specified `button_mapping` still depends
on the default profile's table). -/
def config_alt5 : Config :=
  { config_defaults with
    btn_map := fun i => if i = 5 then .show_desktop else config_defaults.btn_map i }

lemma clamp_two_step (x : ℝ) :
    (if (if 1 < x then (1 : ℝ) else x) < 0 then (0 : ℝ) else if 1 < x then (1 : ℝ) else x)
      = min 1 (max 0 x) := by
  rcases lt_or_le 1 x with hx1 | hx1
  · rw [if_pos hx1, if_neg (by norm_num : ¬ (1 : ℝ) < 0),
      max_eq_right (le_of_lt (lt_trans zero_lt_one hx1)), min_eq_left (le_of_lt hx1)]
  · rw [if_neg (not_lt.mpr hx1)]
    rcases lt_or_le x 0 with hx0 | hx0
    · rw [if_pos hx0, max_eq_left (le_of_lt hx0), min_eq_right (by norm_num : (0 : ℝ) ≤ 1)]
    · rw [if_neg (not_lt.mpr hx0), max_eq_right hx0, min_eq_right hx1]

lemma curve_eq_signed_spec (raw dz : ℤ) (e sc : ℝ) :
    apply_curve raw dz e sc = curve_spec_signed raw dz e sc := by
  have habs : |(raw : ℝ)| = ((|raw| : ℤ) : ℝ) := by push_cast; ring
  simp only [apply_curve, curve_spec_signed, habs, gt_iff_lt, Int.cast_lt, Int.cast_pos]
  by_cases hd : |raw| < dz
  · rw [if_pos hd, if_pos hd]
  · rw [if_neg hd, if_neg hd, clamp_two_step]

/-- Outside the deadzone, with a meaningful deadzone, the curve is the
unclamped normalised power expression. -/
lemma curve_out (raw dz : ℤ) (e sc : ℝ)
    (h1 : dz ≤ |raw|) (h2 : |raw| ≤ 350) (h3 : dz < 350) :
    apply_curve raw dz e sc
      = (if 0 < raw then (1 : ℝ) else -1)
          * ((((|raw| : ℤ) : ℝ) - (dz : ℝ)) / (350 - (dz : ℝ))) ^ e * sc := by
  have hden : (0 : ℝ) < 350 - (dz : ℝ) := by
    have : (dz : ℝ) < 350 := by exact_mod_cast h3
    linarith
  have hnum : (0 : ℝ) ≤ ((|raw| : ℤ) : ℝ) - (dz : ℝ) := by
    have : (dz : ℝ) ≤ ((|raw| : ℤ) : ℝ) := by exact_mod_cast h1
    linarith
  have hnum2 : ((|raw| : ℤ) : ℝ) - (dz : ℝ) ≤ 350 - (dz : ℝ) := by
    have : ((|raw| : ℤ) : ℝ) ≤ 350 := by exact_mod_cast h2
    linarith
  have h0 : 0 ≤ (((|raw| : ℤ) : ℝ) - (dz : ℝ)) / (350 - (dz : ℝ)) :=
    div_nonneg hnum hden.le
  have hle1 : (((|raw| : ℤ) : ℝ) - (dz : ℝ)) / (350 - (dz : ℝ)) ≤ 1 :=
    (div_le_one hden).mpr hnum2
  rw [curve_eq_signed_spec]
  unfold curve_spec_signed
  rw [if_neg (not_lt.mpr h1), max_eq_right h0, min_eq_right hle1]

lemma curve_sign_part (r dz : ℤ) (e sc : ℝ) (hsc : 0 ≤ sc)
    (h1 : dz ≤ |r|) (h2 : |r| ≤ 350) (h3 : dz < 350) (hr : r ≠ 0) :
    same_sign_or_zero r (apply_curve r dz e sc) := by
  have hq := curve_out r dz e sc h1 h2 h3
  have hbase : 0 ≤ ((((|r| : ℤ) : ℝ) - (dz : ℝ)) / (350 - (dz : ℝ))) := by
    have hden : (0 : ℝ) < 350 - (dz : ℝ) := by
      have : (dz : ℝ) < 350 := by exact_mod_cast h3
      linarith
    have hnum : (0 : ℝ) ≤ ((|r| : ℤ) : ℝ) - (dz : ℝ) := by
      have : (dz : ℝ) ≤ ((|r| : ℤ) : ℝ) := by exact_mod_cast h1
      linarith
    exact div_nonneg hnum hden.le
  have hpow : 0 ≤ ((((|r| : ℤ) : ℝ) - (dz : ℝ)) / (350 - (dz : ℝ))) ^ e :=
    Real.rpow_nonneg hbase e
  have hval : 0 ≤ ((((|r| : ℤ) : ℝ) - (dz : ℝ)) / (350 - (dz : ℝ))) ^ e * sc :=
    mul_nonneg hpow hsc
  have hneg_eq : (-1 : ℝ) * (((((|r| : ℤ) : ℝ) - (dz : ℝ)) / (350 - (dz : ℝ))) ^ e) * sc
      = -(((((|r| : ℤ) : ℝ) - (dz : ℝ)) / (350 - (dz : ℝ))) ^ e * sc) := by ring
  rcases hr.lt_or_lt with hneg | hpos
  · rw [hq, if_neg (not_lt.mpr hneg.le)]
    rcases eq_or_lt_of_le hval with hz | hp
    · left
      rw [hneg_eq, ← hz, neg_zero]
    · right; right
      refine ⟨hneg, ?_⟩
      rw [hneg_eq]
      exact neg_lt_zero.mpr hp
  · rw [hq, if_pos hpos, one_mul]
    rcases eq_or_lt_of_le hval with hz | hp
    · left; exact hz.symm
    · right; left; exact ⟨hpos, hp⟩

/-- C1 (corrected).  The curve transform equals the spec's formula with the
sign factor read as the source computes it: `+1` when `raw > 0`, `-1`
otherwise.  Purity and absence of other dependence hold by construction:
`apply_curve` is a function of exactly these four arguments. -/
theorem c1_curve_transform_amended (raw dz : ℤ) (e sc : ℝ) :
    apply_curve raw dz e sc = curve_spec_signed raw dz e sc :=
  curve_eq_signed_spec raw dz e sc

/-- C1 counterexample.  At `raw = 0`, `deadzone = -350`, `exponent = 1`,
`scale = 1` the input is outside the deadzone, the code returns `-1/2`
(it treats `raw = 0` as negative), but the claim's formula with
`sign(0) = 0` returns `0`. -/
theorem c1_sign_zero_counterexample :
    ¬ (|(0 : ℤ)| < (-350 : ℤ)) ∧
      apply_curve 0 (-350) 1 1 ≠ curve_spec 0 (-350) 1 1 := by
  constructor
  · decide
  · have hlhs : apply_curve 0 (-350) 1 1 = -(1 / 2 : ℝ) := by
      rw [curve_out 0 (-350) 1 1 (by decide) (by decide) (by decide)]
      norm_num [Real.rpow_one]
    have hrhs : curve_spec 0 (-350) 1 1 = 0 := by
      unfold curve_spec
      norm_num
    rw [hlhs, hrhs]
    norm_num

/-- C2 (corrected: the scale must be nonnegative).  Outside the deadzone,
for any positive exponent and nonnegative scale, the curve magnitude is
monotone in the raw magnitude and the result is zero or has the sign of
the raw sample. -/
theorem c2_monotone_sign_amended (r1 r2 dz : ℤ) (e sc : ℝ)
    (he : 0 < e) (hsc : 0 ≤ sc)
    (h1 : dz ≤ |r1|) (h12 : |r1| < |r2|) (h2 : |r2| ≤ 350)
    (hs : Int.sign r1 = Int.sign r2) :
    |apply_curve r1 dz e sc| ≤ |apply_curve r2 dz e sc|
    ∧ same_sign_or_zero r1 (apply_curve r1 dz e sc)
    ∧ same_sign_or_zero r2 (apply_curve r2 dz e sc) := by
  have h1le : |r1| ≤ 350 := le_of_lt (lt_of_lt_of_le h12 h2)
  have hdz350 : dz < 350 := lt_of_le_of_lt h1 (lt_of_lt_of_le h12 h2)
  have h1' : dz ≤ |r2| := le_trans h1 h12.le
  have hr2 : r2 ≠ 0 := by
    intro h
    rw [h] at h12
    simp only [abs_zero] at h12
    exact absurd h12 (not_lt.mpr (abs_nonneg r1))
  have hr1 : r1 ≠ 0 := by
    intro h
    rw [h, Int.sign_zero] at hs
    exact hr2 (Int.sign_eq_zero_iff_zero.mp hs.symm)
  have hden : (0 : ℝ) < 350 - (dz : ℝ) := by
    have : (dz : ℝ) < 350 := by exact_mod_cast hdz350
    linarith
  have hn1 : (0 : ℝ) ≤ ((((|r1| : ℤ) : ℝ) - (dz : ℝ)) / (350 - (dz : ℝ))) := by
    have : (dz : ℝ) ≤ ((|r1| : ℤ) : ℝ) := by exact_mod_cast h1
    exact div_nonneg (by linarith) hden.le
  have hmono : ((((|r1| : ℤ) : ℝ) - (dz : ℝ)) / (350 - (dz : ℝ)))
      ≤ ((((|r2| : ℤ) : ℝ) - (dz : ℝ)) / (350 - (dz : ℝ))) := by
    apply (div_le_div_right hden).mpr
    have : ((|r1| : ℤ) : ℝ) ≤ ((|r2| : ℤ) : ℝ) := by exact_mod_cast h12.le
    linarith
  have hpow : ((((|r1| : ℤ) : ℝ) - (dz : ℝ)) / (350 - (dz : ℝ))) ^ e
      ≤ ((((|r2| : ℤ) : ℝ) - (dz : ℝ)) / (350 - (dz : ℝ))) ^ e :=
    Real.rpow_le_rpow hn1 hmono he.le
  have habs : ∀ (r : ℤ), dz ≤ |r| → |r| ≤ 350 →
      |apply_curve r dz e sc|
        = ((((|r| : ℤ) : ℝ) - (dz : ℝ)) / (350 - (dz : ℝ))) ^ e * sc := by
    intro r hra hb
    rw [curve_out r dz e sc hra hb hdz350, abs_mul, abs_mul]
    have hb0 : (0 : ℝ) ≤ ((((|r| : ℤ) : ℝ) - (dz : ℝ)) / (350 - (dz : ℝ))) := by
      have : (dz : ℝ) ≤ ((|r| : ℤ) : ℝ) := by exact_mod_cast hra
      exact div_nonneg (by linarith) hden.le
    have hsign : |(if 0 < r then (1 : ℝ) else -1)| = 1 := by
      rcases lt_or_le 0 r with h | h
      · rw [if_pos h, abs_one]
      · rw [if_neg (not_lt.mpr h), abs_neg, abs_one]
    rw [hsign, one_mul, abs_of_nonneg (Real.rpow_nonneg hb0 e), abs_of_nonneg hsc]
  refine ⟨?_, curve_sign_part r1 dz e sc hsc h1 h1le hdz350 hr1,
      curve_sign_part r2 dz e sc hsc h1' h2 hdz350 hr2⟩
  rw [habs r1 h1 h1le, habs r2 h1' h2]
  exact mul_le_mul_of_nonneg_right hpow hsc

/-- C2 witness: the amended theorem applied at a concrete in-range input. -/
theorem c2_monotone_sign_witness :
    |apply_curve 50 15 1 1| ≤ |apply_curve 100 15 1 1|
    ∧ same_sign_or_zero 50 (apply_curve 50 15 1 1)
    ∧ same_sign_or_zero 100 (apply_curve 100 15 1 1) :=
  c2_monotone_sign_amended 50 100 15 1 1 zero_lt_one zero_le_one
    (by decide) (by decide) (by decide) (by decide)

/-- C2 counterexample.  With a negative scale (`-1`) and an in-range pair,
the claim's sign-preservation clause fails: the transform of the positive
sample `100` is strictly negative. -/
theorem c2_negative_scale_counterexample :
    ((15 : ℤ) ≤ |(100 : ℤ)| ∧ |(100 : ℤ)| < |(200 : ℤ)| ∧ |(200 : ℤ)| ≤ 350
      ∧ Int.sign 100 = Int.sign 200 ∧ (0 : ℝ) < 1)
    ∧ ¬ same_sign_or_zero 100 (apply_curve 100 15 1 (-1)) := by
  refine ⟨⟨by decide, by decide, by decide, by decide, by norm_num⟩, ?_⟩
  have hval : apply_curve 100 15 1 (-1) = -(17 / 67 : ℝ) := by
    rw [curve_out 100 15 1 (-1) (by decide) (by decide) (by decide)]
    norm_num [Real.rpow_one]
  rw [same_sign_or_zero, hval]
  push_neg
  norm_num

lemma truncz_sub_bounds (x : ℝ) :
    -1 < x - (truncz x : ℝ) ∧ x - (truncz x : ℝ) < 1 := by
  unfold truncz
  split
  · have h1 : ((⌊x⌋ : ℤ) : ℝ) ≤ x := Int.floor_le x
    have h2 : x < ((⌊x⌋ : ℤ) : ℝ) + 1 := Int.lt_floor_add_one x
    constructor <;> linarith
  · have h1 : x ≤ ((⌈x⌉ : ℤ) : ℝ) := Int.le_ceil x
    have h2 : ((⌈x⌉ : ℤ) : ℝ) < x + 1 := Int.ceil_lt_add_one x
    constructor <;> linarith

lemma consume_fold_sum : ∀ (ds : List ℝ) (st : ℤ × ℝ),
    (((ds.foldl consume_step st).1 : ℝ) + (ds.foldl consume_step st).2)
      = (st.1 : ℝ) + st.2 + ds.sum := by
  intro ds
  induction ds with
  | nil => intro st; simp
  | cons d ds ih =>
    intro st
    rw [List.foldl_cons, ih]
    simp only [consume_step, scroll_acc_consume, List.sum_cons]
    push_cast
    ring

lemma consume_fold_rem : ∀ (ds : List ℝ) (st : ℤ × ℝ), ds ≠ [] →
    -1 < (ds.foldl consume_step st).2 ∧ (ds.foldl consume_step st).2 < 1 := by
  intro ds
  induction ds with
  | nil => intro st h; exact absurd rfl h
  | cons d ds ih =>
    intro st _
    rw [List.foldl_cons]
    cases ds with
    | nil =>
      simp only [List.foldl_nil, consume_step, scroll_acc_consume]
      exact truncz_sub_bounds (st.2 + d)
    | cons d2 ds2 => exact ih (consume_step st d) (by simp)

/-- C3.  Starting from a zero remainder, after any sequence of consume
calls the remainder is strictly inside `(-1, 1)` and the running sum of
emitted integers differs from the running sum of input deltas by less
than 1.  (Every prefix of a sequence is itself a sequence, so this states
the bound at every point in time.) -/
theorem c3_accumulator_bounds (ds : List ℝ) :
    (-1 < (consume_run ds).2 ∧ (consume_run ds).2 < 1)
    ∧ |((consume_run ds).1 : ℝ) - ds.sum| < 1 := by
  have hsum := consume_fold_sum ds (0, 0)
  simp only [Int.cast_zero, zero_add] at hsum
  have hrem : -1 < (consume_run ds).2 ∧ (consume_run ds).2 < 1 := by
    cases ds with
    | nil => norm_num [consume_run]
    | cons d ds => exact consume_fold_rem (d :: ds) (0, 0) (by simp)
  refine ⟨hrem, ?_⟩
  have : ((consume_run ds).1 : ℝ) - ds.sum = -(consume_run ds).2 := by
    have h := hsum
    unfold consume_run at *
    linarith
  rw [this, abs_neg, abs_lt]
  exact ⟨hrem.1, hrem.2⟩

lemma find_idx_none_iff {α : Type} (pred : α → Bool) :
    ∀ (l : List α) (i : ℕ), find_idx pred l i = none ↔ ∀ x ∈ l, pred x = false := by
  intro l
  induction l with
  | nil => intro i; simp [find_idx]
  | cons x xs ih =>
    intro i
    rw [find_idx]
    by_cases h : pred x = true
    · simp [h]
    · have hx : pred x = false := by simpa using h
      rw [if_neg (by simp [hx]), ih (i + 1)]
      simp [List.forall_mem_cons, hx]

lemma find_idx_some_get {α : Type} (pred : α → Bool) :
    ∀ (l : List α) (i j : ℕ) (x : α), find_idx pred l i = some (j, x) →
      i ≤ j ∧ l.get? (j - i) = some x ∧ pred x = true := by
  intro l
  induction l with
  | nil => intro i j x h; simp [find_idx] at h
  | cons y ys ih =>
    intro i j x h
    rw [find_idx] at h
    by_cases hy : pred y = true
    · rw [if_pos hy] at h
      simp only [Option.some.injEq, Prod.mk.injEq] at h
      obtain ⟨rfl, rfl⟩ := h
      exact ⟨le_refl i, by simp, hy⟩
    · rw [if_neg hy] at h
      obtain ⟨h1, h2, h3⟩ := ih (i + 1) j x h
      refine ⟨by omega, ?_, h3⟩
      have harith : j - i = (j - (i + 1)) + 1 := by omega
      rw [harith]
      simpa using h2

lemma find_idx_first {α : Type} (pred : α → Bool) :
    ∀ (l : List α) (i j : ℕ) (x : α), l.get? j = some x → pred x = true →
      (∀ k y, k < j → l.get? k = some y → pred y = false) →
      find_idx pred l i = some (i + j, x) := by
  intro l
  induction l with
  | nil => intro i j x h _ _; simp at h
  | cons z zs ih =>
    intro i j x hget hx hmin
    cases j with
    | zero =>
      simp only [List.get?_cons_zero, Option.some.injEq] at hget
      subst hget
      rw [find_idx, if_pos hx]
      simp
    | succ j' =>
      have hz : pred z = false := hmin 0 z (Nat.succ_pos j') (by simp)
      rw [find_idx, if_neg (by simp [hz])]
      have hrec := ih (i + 1) j' x (by simpa using hget) hx
        (fun k y hk hky => hmin (k + 1) y (by omega) (by simpa using hky))
      have harith : i + 1 + j' = i + (j' + 1) := by omega
      rw [harith] at hrec
      exact hrec

lemma default_profile_name (entries : List (String × ProfileObj)) :
    (default_profile_of entries).name = "default" := by
  unfold default_profile_of
  cases entries.lookup "default" <;> rfl

lemma load_head_default (doc : Option Doc) :
    ∃ q, (config_load_all doc).2.get? 0 = some q ∧ q.name = "default" := by
  rcases doc with _ | d
  · exact ⟨⟨"default", [], config_defaults⟩, rfl, rfl⟩
  · rcases d with o | entries
    · exact ⟨_, rfl, rfl⟩
    · exact ⟨default_profile_of entries, rfl, default_profile_name entries⟩

/-- C8.  A document that cannot be read or parsed still loads successfully
(`config_load_all` returns 0) and yields exactly one profile, at index 0,
named "default", carrying the built-in default configuration. -/
theorem c8_unreadable_document_defaults :
    (config_load_all none).1 = 0
    ∧ (config_load_all none).2 = [⟨"default", [], config_defaults⟩] :=
  ⟨rfl, rfl⟩

/-- C6.  The `PROFILE <name>` command looks the name up case-insensitively:
when no profile matches, the response is the `ERR unknown profile` line and
the active index is unchanged; when a profile matches, the active index
moves to the first match and the response echoes the stored canonical
name. -/
theorem c6_profile_command (ps : List Profile) (active : ℕ) (name : String) :
    ((∀ p ∈ ps, strcaseeq p.name name = false) →
      handle_profile_cmd ps active name
        = ("ERR unknown profile '" ++ name ++ "'" ++ "\n", active))
    ∧ (∀ i p, ps.get? i = some p → strcaseeq p.name name = true →
        (∀ j q, j < i → ps.get? j = some q → strcaseeq q.name name = false) →
        handle_profile_cmd ps active name = ("OK " ++ p.name ++ "\n", i)) := by
  constructor
  · intro h
    have hnone : find_idx (fun p => strcaseeq p.name name) ps 0 = none :=
      (find_idx_none_iff _ ps 0).mpr (fun x hx => h x hx)
    unfold handle_profile_cmd
    rw [hnone]
  · intro i p hget hp hmin
    have hsome : find_idx (fun p => strcaseeq p.name name) ps 0 = some (0 + i, p) :=
      find_idx_first _ ps 0 i p hget hp (fun k y hk hky => hmin k y hk hky)
    unfold handle_profile_cmd
    rw [hsome]
    simp

/-- C6 witness: `PROFILE Blender` against a store holding only the default
profile. -/
theorem c6_profile_command_witness :
    handle_profile_cmd [⟨"default", [], config_defaults⟩] 0 "Blender"
      = ("ERR unknown profile '" ++ "Blender" ++ "'" ++ "\n", 0) :=
  (c6_profile_command [⟨"default", [], config_defaults⟩] 0 "Blender").1
    (by
      intro p hp
      rw [List.mem_singleton] at hp
      subst hp
      decide)

/-- C7.  A reload rebuilds the store from the document, keeps the active
profile by (exact) name when a same-named profile still exists, falls back
to index 0 otherwise — and index 0 always holds the profile named
"default" — and resets the accumulator state to zero. -/
theorem c7_reload_preserves_active (old_name : String) (doc : Option Doc) (sacc : ScrollAcc) :
    (reload_step old_name doc sacc).1 = (config_load_all doc).2
    ∧ (reload_step old_name doc sacc).2.2 = scroll_acc_reset
    ∧ ((∃ p ∈ (reload_step old_name doc sacc).1, p.name = old_name) →
        ∃ p, (reload_step old_name doc sacc).1.get? (reload_step old_name doc sacc).2.1
              = some p ∧ p.name = old_name)
    ∧ ((∀ p ∈ (reload_step old_name doc sacc).1, p.name ≠ old_name) →
        (reload_step old_name doc sacc).2.1 = 0)
    ∧ (∃ q, (reload_step old_name doc sacc).1.get? 0 = some q ∧ q.name = "default") := by
  have hfst : (reload_step old_name doc sacc).1 = (config_load_all doc).2 := rfl
  rcases hfind : find_idx (fun p => p.name == old_name) ((config_load_all doc).2) 0
    with _ | ⟨i, q⟩
  · have hsnd : (reload_step old_name doc sacc).2.1 = 0 := by
      unfold reload_step
      rw [hfind]
    refine ⟨hfst, rfl, ?_, fun _ => hsnd, by rw [hfst]; exact load_head_default doc⟩
    intro hex
    exfalso
    obtain ⟨p, hp, hname⟩ := hex
    rw [hfst] at hp
    have := (find_idx_none_iff _ ((config_load_all doc).2) 0).mp hfind p hp
    rw [hname] at this
    simp at this
  · have hsnd : (reload_step old_name doc sacc).2.1 = i := by
      unfold reload_step
      rw [hfind]
    obtain ⟨_, hget, hpred⟩ := find_idx_some_get _ ((config_load_all doc).2) 0 i q hfind
    refine ⟨hfst, rfl, ?_, ?_, by rw [hfst]; exact load_head_default doc⟩
    · intro _
      refine ⟨q, ?_, eq_of_beq hpred⟩
      rw [hfst, hsnd]
      simpa using hget
    · intro hall
      exfalso
      have hqmem : q ∈ (config_load_all doc).2 := List.get?_mem (by simpa using hget)
      exact (hall q (by rw [hfst]; exact hqmem)) (eq_of_beq hpred)

/-- C7 witness: reloading an unreadable document while profile "Web" was
active resets the active index to 0. -/
theorem c7_reload_witness :
    (reload_step "Web" none scroll_acc_reset).2.1 = 0 :=
  (c7_reload_preserves_active "Web" none scroll_acc_reset).2.2.2.1
    (by
      intro p hp
      rw [show (reload_step "Web" none scroll_acc_reset).1
            = [⟨"default", [], config_defaults⟩] from rfl, List.mem_singleton] at hp
      subst hp
      decide)

lemma btn_fold_not_hit :
    ∀ (entries : List (String × String)) (m : Fin 16 → BtnAct) (i : Fin 16),
      (∀ kv ∈ entries, atoi kv.1 ≠ ((i : ℕ) : ℤ)) →
      (entries.foldl apply_btn_entry m) i = m i := by
  intro entries
  induction entries with
  | nil => intro m i _; rfl
  | cons kv rest ih =>
    intro m i h
    rw [List.foldl_cons, ih _ i (fun kv' hkv' => h kv' (List.mem_cons_of_mem _ hkv'))]
    unfold apply_btn_entry
    by_cases hr : 0 ≤ atoi kv.1 ∧ atoi kv.1 < 16
    · rw [if_pos hr]
      exact if_neg (fun hc => (h kv (List.mem_cons_self _ _)) hc.symm)
    · rw [if_neg hr]

lemma btn_fold_last_hit :
    ∀ (pre post : List (String × String)) (kv : String × String)
      (m : Fin 16 → BtnAct) (i : Fin 16),
      atoi kv.1 = ((i : ℕ) : ℤ) →
      (∀ kv' ∈ post, atoi kv'.1 ≠ ((i : ℕ) : ℤ)) →
      ((pre ++ kv :: post).foldl apply_btn_entry m) i = parse_btn_action kv.2 := by
  intro pre post kv m i hhit hlast
  rw [List.foldl_append, List.foldl_cons, btn_fold_not_hit post _ i hlast]
  unfold apply_btn_entry
  have hr : 0 ≤ atoi kv.1 ∧ atoi kv.1 < 16 := by
    rw [hhit]
    exact ⟨Int.natCast_nonneg _, by exact_mod_cast i.isLt⟩
  rw [if_pos hr]
  exact if_pos hhit.symm

lemma add_profiles_mem (base : Config) :
    ∀ (entries : List (String × ProfileObj)) (cnt : ℕ) (p : Profile),
      p ∈ add_profiles base entries cnt →
      ∃ o, (p.name, o) ∈ entries ∧ p.name ≠ "default"
        ∧ p.cfg = parse_profile_obj o (some base) := by
  intro entries
  induction entries with
  | nil => intro cnt p hp; simp [add_profiles] at hp
  | cons e rest ih =>
    intro cnt p hp
    rcases e with ⟨n, o⟩
    rw [add_profiles] at hp
    by_cases hc : n ≠ "default" ∧ cnt < 32
    · rw [if_pos hc] at hp
      rcases List.mem_cons.mp hp with hph | hpt
      · subst hph
        exact ⟨o, List.mem_cons_self _ _, hc.1, rfl⟩
      · obtain ⟨o', ho, hn, hcfg⟩ := ih (cnt + 1) p hpt
        exact ⟨o', List.mem_cons_of_mem _ ho, hn, hcfg⟩
    · rw [if_neg hc] at hp
      obtain ⟨o', ho, hn, hcfg⟩ := ih cnt p hp
      exact ⟨o', List.mem_cons_of_mem _ ho, hn, hcfg⟩

/-- C4 (corrected: for the nested mapping objects the field granularity is
per key).  First part: every non-default profile of a loaded multi-profile
document was parsed with profile 0's loaded configuration as its
inheritance base (so inheritance is resolved once, at load).  Second part:
for every scalar configuration field, omit keeps the base's value and
specify yields exactly the specified value independent of the base; for
`axis_mapping` the same holds slot by slot; for `button_mapping`, an
omitted object keeps the whole inherited table, a present object merges
per key: a slot no key converts to stays inherited, and a slot some key
converts to carries the value of the last such entry. -/
theorem c4_profile_inheritance :
    (∀ (entries : List (String × ProfileObj)) (p : Profile),
        p ∈ (config_load_all (some (Doc.multi entries))).2.tail →
        ∃ o, (p.name, o) ∈ entries ∧ p.name ≠ "default"
          ∧ p.cfg = parse_profile_obj o (some (default_profile_of entries).cfg))
    ∧ (∀ (o : ProfileObj) (base : Config),
        ((o.deadzone = none → (parse_profile_obj o (some base)).deadzone = base.deadzone)
          ∧ ∀ v, o.deadzone = some v → (parse_profile_obj o (some base)).deadzone = v)
        ∧ ((o.scroll_speed = none →
              (parse_profile_obj o (some base)).scroll_speed = base.scroll_speed)
          ∧ ∀ v, o.scroll_speed = some v → (parse_profile_obj o (some base)).scroll_speed = v)
        ∧ ((o.scroll_exponent = none →
              (parse_profile_obj o (some base)).scroll_exponent = base.scroll_exponent)
          ∧ ∀ v, o.scroll_exponent = some v →
              (parse_profile_obj o (some base)).scroll_exponent = v)
        ∧ ((o.zoom_speed = none → (parse_profile_obj o (some base)).zoom_speed = base.zoom_speed)
          ∧ ∀ v, o.zoom_speed = some v → (parse_profile_obj o (some base)).zoom_speed = v)
        ∧ ((o.dswitch_threshold = none →
              (parse_profile_obj o (some base)).dswitch_threshold = base.dswitch_threshold)
          ∧ ∀ v, o.dswitch_threshold = some v →
              (parse_profile_obj o (some base)).dswitch_threshold = v)
        ∧ ((o.dswitch_cooldown_ms = none →
              (parse_profile_obj o (some base)).dswitch_cooldown_ms = base.dswitch_cooldown_ms)
          ∧ ∀ v, o.dswitch_cooldown_ms = some v →
              (parse_profile_obj o (some base)).dswitch_cooldown_ms = v)
        ∧ ((o.invert_scroll_x = none →
              (parse_profile_obj o (some base)).invert_scroll_x = base.invert_scroll_x)
          ∧ ∀ v, o.invert_scroll_x = some v →
              (parse_profile_obj o (some base)).invert_scroll_x = v)
        ∧ ((o.invert_scroll_y = none →
              (parse_profile_obj o (some base)).invert_scroll_y = base.invert_scroll_y)
          ∧ ∀ v, o.invert_scroll_y = some v →
              (parse_profile_obj o (some base)).invert_scroll_y = v)
        ∧ ((o.sensitivity = none →
              (parse_profile_obj o (some base)).sensitivity = base.sensitivity)
          ∧ ∀ v, o.sensitivity = some v → (parse_profile_obj o (some base)).sensitivity = v)
        ∧ ((o.axis_mapping = none →
              (parse_profile_obj o (some base)).axis_map = base.axis_map)
          ∧ ∀ am, o.axis_mapping = some am → ∀ i,
              ((am.slot i = none →
                  (parse_profile_obj o (some base)).axis_map i = base.axis_map i)
                ∧ ∀ s, am.slot i = some s →
                    (parse_profile_obj o (some base)).axis_map i = parse_axis_action s))
        ∧ ((o.button_mapping = none →
              (parse_profile_obj o (some base)).btn_map = base.btn_map)
          ∧ ∀ entries, o.button_mapping = some entries → ∀ i : Fin 16,
              ((∀ kv ∈ entries, atoi kv.1 ≠ ((i : ℕ) : ℤ)) →
                  (parse_profile_obj o (some base)).btn_map i = base.btn_map i)
              ∧ (∀ pre kv post, entries = pre ++ kv :: post →
                  atoi kv.1 = ((i : ℕ) : ℤ) →
                  (∀ kv' ∈ post, atoi kv'.1 ≠ ((i : ℕ) : ℤ)) →
                  (parse_profile_obj o (some base)).btn_map i = parse_btn_action kv.2))) := by
  constructor
  · intro entries p hp
    exact add_profiles_mem _ entries 1 p hp
  · intro o base
    refine ⟨⟨fun h => by simp [parse_profile_obj, h], fun v h => by simp [parse_profile_obj, h]⟩,
      ⟨fun h => by simp [parse_profile_obj, h], fun v h => by simp [parse_profile_obj, h]⟩,
      ⟨fun h => by simp [parse_profile_obj, h], fun v h => by simp [parse_profile_obj, h]⟩,
      ⟨fun h => by simp [parse_profile_obj, h], fun v h => by simp [parse_profile_obj, h]⟩,
      ⟨fun h => by simp [parse_profile_obj, h], fun v h => by simp [parse_profile_obj, h]⟩,
      ⟨fun h => by simp [parse_profile_obj, h], fun v h => by simp [parse_profile_obj, h]⟩,
      ⟨fun h => by simp [parse_profile_obj, h], fun v h => by simp [parse_profile_obj, h]⟩,
      ⟨fun h => by simp [parse_profile_obj, h], fun v h => by simp [parse_profile_obj, h]⟩,
      ⟨fun h => by simp [parse_profile_obj, h], fun v h => by simp [parse_profile_obj, h]⟩,
      ⟨fun h => by simp [parse_profile_obj, h],
        fun am ham i =>
          ⟨fun hs => by simp [parse_profile_obj, ham, apply_axis_map, hs],
           fun s hs => by simp [parse_profile_obj, ham, apply_axis_map, hs]⟩⟩,
      fun h => by simp [parse_profile_obj, h],
      fun entries ham i =>
        ⟨fun hnone => by
            have hfold : (parse_profile_obj o (some base)).btn_map
                = entries.foldl apply_btn_entry base.btn_map := by
              simp [parse_profile_obj, ham]
            rw [hfold]
            exact btn_fold_not_hit entries base.btn_map i hnone,
         fun pre kv post hsplit hhit hlast => by
            have hfold : (parse_profile_obj o (some base)).btn_map
                = entries.foldl apply_btn_entry base.btn_map := by
              simp [parse_profile_obj, ham]
            rw [hfold, hsplit]
            exact btn_fold_last_hit pre post kv base.btn_map i hhit hlast⟩⟩

/-- C4 counterexample.  A profile that specifies
`button_mapping = {"3": "overview"}` does not get an effective
`button_mapping` independent of the default: under two defaults differing
only at button 5, the loaded tables differ at button 5, because present
keys merge into the inherited table instead of replacing it. -/
theorem c4_button_merge_counterexample :
    obj_btn3.button_mapping = some [("3", "overview")]
    ∧ (parse_profile_obj obj_btn3 (some config_defaults)).btn_map 5
        ≠ (parse_profile_obj obj_btn3 (some config_alt5)).btn_map 5 :=
  ⟨rfl, by decide⟩

/-- C4 witness: a profile object omitting `deadzone` inherits the default's
deadzone; one specifying `deadzone = 42` gets 42; specifying
`button_mapping = {"3": "overview"}` sets button 3 to the specified action
and leaves button 5 inherited. -/
theorem c4_profile_inheritance_witness :
    (parse_profile_obj obj_empty (some config_defaults)).deadzone = config_defaults.deadzone
    ∧ (parse_profile_obj obj_dz42 (some config_defaults)).deadzone = 42
    ∧ (parse_profile_obj obj_btn3 (some config_defaults)).btn_map 3
        = parse_btn_action "overview"
    ∧ (parse_profile_obj obj_btn3 (some config_defaults)).btn_map 5
        = config_defaults.btn_map 5 :=
  ⟨(c4_profile_inheritance.2 obj_empty config_defaults).1.1 rfl,
   (c4_profile_inheritance.2 obj_dz42 config_defaults).1.2 42 rfl,
   ((c4_profile_inheritance.2 obj_btn3 config_defaults).2.2.2.2.2.2.2.2.2.2.2
       [("3", "overview")] rfl 3).2 [] ("3", "overview") [] rfl (by decide) (by decide),
   ((c4_profile_inheritance.2 obj_btn3 config_defaults).2.2.2.2.2.2.2.2.2.2.2
       [("3", "overview")] rfl 5).1 (by decide)⟩

lemma gate_run_cons (thr cool last : ℤ) (s : ℤ × ℤ) (ss : List (ℤ × ℤ)) :
    gate_run thr cool last (s :: ss)
      = if |s.2| > thr ∧ s.1 - last > cool then
          (s.1, if s.2 > 0 then Dir.next else Dir.prev) :: gate_run thr cool s.1 ss
        else gate_run thr cool last ss := by
  by_cases h : |s.2| > thr ∧ s.1 - last > cool
  · simp [gate_run, gate_step, h]
  · simp [gate_run, gate_step, h]

lemma gate_tail_ge (thr cool : ℤ) :
    ∀ (ss : List (ℤ × ℤ)) (last : ℤ), gate_run thr cool last ss ≠ [] →
      ∃ b ∈ gate_run thr cool last ss,
        last + ((gate_run thr cool last ss).length : ℤ) * (cool + 1) ≤ b.1 := by
  intro ss
  induction ss with
  | nil => intro last h; simp [gate_run] at h
  | cons s ss ih =>
    intro last hne
    rw [gate_run_cons] at hne ⊢
    by_cases h : |s.2| > thr ∧ s.1 - last > cool
    · rw [if_pos h] at hne ⊢
      by_cases hrec : gate_run thr cool s.1 ss = []
      · refine ⟨(s.1, if s.2 > 0 then Dir.next else Dir.prev), List.mem_cons_self _ _, ?_⟩
        rw [hrec]
        simp only [List.length_cons, List.length_nil]
        push_cast
        linarith [h.2]
      · obtain ⟨b, hb, hble⟩ := ih s.1 hrec
        refine ⟨b, List.mem_cons_of_mem _ hb, ?_⟩
        simp only [List.length_cons]
        push_cast
        have hexp : (((gate_run thr cool s.1 ss).length : ℤ) + 1) * (cool + 1)
            = ((gate_run thr cool s.1 ss).length : ℤ) * (cool + 1) + (cool + 1) := by ring
        have hstep : last + cool + 1 ≤ s.1 := by linarith [h.2]
        linarith [hexp, hble]
    · rw [if_neg h] at hne ⊢
      exact ih last hne

lemma gate_window (thr cool lo hi : ℤ) :
    ∀ (ss : List (ℤ × ℤ)) (last : ℤ),
      (∀ s ∈ ss, lo ≤ s.1 ∧ s.1 ≤ hi) →
      ∀ t ∈ gate_run thr cool last ss, lo ≤ t.1 ∧ t.1 ≤ hi := by
  intro ss
  induction ss with
  | nil => intro last _ t ht; simp [gate_run] at ht
  | cons s ss ih =>
    intro last hw t ht
    rw [gate_run_cons] at ht
    by_cases h : |s.2| > thr ∧ s.1 - last > cool
    · rw [if_pos h] at ht
      rcases List.mem_cons.mp ht with h1 | h2
      · rw [h1]
        exact hw s (List.mem_cons_self s ss)
      · exact ih s.1 (fun s' hs' => hw s' (List.mem_cons_of_mem _ hs')) t h2
    · rw [if_neg h] at ht
      exact ih last (fun s' hs' => hw s' (List.mem_cons_of_mem _ hs')) t ht

lemma gate_anchor (thr cool lo hi : ℤ) :
    ∀ (ss : List (ℤ × ℤ)) (last : ℤ),
      (∀ s ∈ ss, lo ≤ s.1 ∧ s.1 ≤ hi) →
      gate_run thr cool last ss ≠ [] →
      ∃ b ∈ gate_run thr cool last ss,
        lo + (((gate_run thr cool last ss).length : ℤ) - 1) * (cool + 1) ≤ b.1 := by
  intro ss
  induction ss with
  | nil => intro last _ h; simp [gate_run] at h
  | cons s ss ih =>
    intro last hw hne
    rw [gate_run_cons] at hne ⊢
    by_cases h : |s.2| > thr ∧ s.1 - last > cool
    · rw [if_pos h] at hne ⊢
      have hs_lo : lo ≤ s.1 := (hw s (List.mem_cons_self s ss)).1
      by_cases hrec : gate_run thr cool s.1 ss = []
      · refine ⟨(s.1, if s.2 > 0 then Dir.next else Dir.prev), List.mem_cons_self _ _, ?_⟩
        rw [hrec]
        simp only [List.length_cons, List.length_nil]
        push_cast
        linarith
      · obtain ⟨b, hb, hble⟩ := gate_tail_ge thr cool ss s.1 hrec
        refine ⟨b, List.mem_cons_of_mem _ hb, ?_⟩
        simp only [List.length_cons]
        push_cast
        have hexp : (((gate_run thr cool s.1 ss).length : ℤ) + 1 - 1) * (cool + 1)
            = ((gate_run thr cool s.1 ss).length : ℤ) * (cool + 1) := by ring
        linarith [hexp, hble]
    · rw [if_neg h] at hne ⊢
      exact ih last (fun s' hs' => hw s' (List.mem_cons_of_mem _ hs')) hne

lemma gate_count_bound (thr cool lo T last : ℤ) (hcool : 1 ≤ cool) (hT : 0 ≤ T)
    (ss : List (ℤ × ℤ)) (hw : ∀ s ∈ ss, lo ≤ s.1 ∧ s.1 ≤ lo + T) :
    ((gate_run thr cool last ss).length : ℤ) ≤ T / cool + 1 := by
  have hdivnn : 0 ≤ T / cool := Int.ediv_nonneg hT (by linarith)
  by_cases hne : gate_run thr cool last ss = []
  · rw [hne]
    simp only [List.length_nil, Int.natCast_zero]
    linarith
  · obtain ⟨b, hb, hble⟩ := gate_anchor thr cool lo (lo + T) ss last hw hne
    have hup := (gate_window thr cool lo (lo + T) ss last hw b hb).2
    have hlen1 : (1 : ℤ) ≤ ((gate_run thr cool last ss).length : ℤ) := by
      have := List.length_pos.mpr hne
      exact_mod_cast this
    have hkey : (((gate_run thr cool last ss).length : ℤ) - 1) * (cool + 1) ≤ T := by
      linarith
    have hkey2 : (((gate_run thr cool last ss).length : ℤ) - 1) * cool
        ≤ (((gate_run thr cool last ss).length : ℤ) - 1) * (cool + 1) :=
      mul_le_mul_of_nonneg_left (by linarith) (by linarith)
    have hdiv : ((gate_run thr cool last ss).length : ℤ) - 1 ≤ T / cool := by
      rw [Int.le_ediv_iff_mul_le (by linarith : (0 : ℤ) < cool)]
      linarith
    linarith

/-- C5.  First part: the gate fires exactly when the magnitude exceeds the
threshold and the cooldown has elapsed, with direction `next` for positive
and `prev` for negative samples, stamping `last := now` on a fire and
leaving it unchanged otherwise.  Second part: over any sample sequence
whose times lie in a window of duration `T`, at most `T / cooldown + 1`
triggers fire, regardless of how densely the samples arrive. -/
theorem c5_gate_cooldown :
    (∀ thr cool last now axis : ℤ,
        ((gate_step thr cool last (now, axis)).1 ≠ none ↔ thr < |axis| ∧ cool < now - last)
        ∧ (thr < |axis| ∧ cool < now - last →
            (0 < axis → gate_step thr cool last (now, axis) = (some Dir.next, now))
            ∧ (axis < 0 → gate_step thr cool last (now, axis) = (some Dir.prev, now)))
        ∧ (¬(thr < |axis| ∧ cool < now - last) →
            gate_step thr cool last (now, axis) = (none, last)))
    ∧ (∀ thr cool lo T last : ℤ, ∀ ss : List (ℤ × ℤ), 1 ≤ cool → 0 ≤ T →
        (∀ s ∈ ss, lo ≤ s.1 ∧ s.1 ≤ lo + T) →
        ((gate_run thr cool last ss).length : ℤ) ≤ T / cool + 1) := by
  constructor
  · intro thr cool last now axis
    refine ⟨?_, ?_, ?_⟩
    · unfold gate_step
      by_cases h : thr < |axis| ∧ cool < now - last
      · simp [h]
      · simp [h]
    · intro h
      constructor
      · intro hpos
        unfold gate_step
        rw [if_pos ⟨h.1, h.2⟩, if_pos hpos]
      · intro hneg
        unfold gate_step
        rw [if_pos ⟨h.1, h.2⟩, if_neg (not_lt.mpr hneg.le : ¬ axis > 0)]
    · intro h
      unfold gate_step
      rw [if_neg (fun hc => h ⟨hc.1, hc.2⟩)]
  · intro thr cool lo T last ss hcool hT hw
    exact gate_count_bound thr cool lo T last hcool hT ss hw

/-- C5 witness: three over-threshold samples inside a 1000 ms window with a
500 ms cooldown fire at most 3 times. -/
theorem c5_gate_cooldown_witness :
    ((gate_run 200 500 0 [(600, 300), (700, 300), (1000, -250)]).length : ℤ)
      ≤ 1000 / 500 + 1 :=
  c5_gate_cooldown.2 200 500 0 1000 0 [(600, 300), (700, 300), (1000, -250)]
    (by decide) (by decide) (by decide)

lemma axis_step_effects_no_dbus (c : Config) (now : ℤ) (axes : Fin 6 → ℤ)
    (st : ScrollAcc × ℤ × List Effect) (i : Fin 6) :
    (axis_step c false now axes st i).2.2 = st.2.2 := by
  unfold axis_step
  cases hc : c.axis_map i
  case act_none => rfl
  case scroll_h => rfl
  case scroll_v => rfl
  case zoom => rfl
  case desktop_switch =>
    by_cases h : |axes i| > c.dswitch_threshold ∧ now - st.2.1 > c.dswitch_cooldown_ms
    · rw [if_pos h]
      simp
    · rw [if_neg h]

lemma axis_fold_effects_no_dbus (c : Config) (now : ℤ) (axes : Fin 6 → ℤ) :
    ∀ (l : List (Fin 6)) (st : ScrollAcc × ℤ × List Effect),
      (l.foldl (axis_step c false now axes) st).2.2 = st.2.2 := by
  intro l
  induction l with
  | nil => intro st; rfl
  | cons i l ih =>
    intro st
    rw [List.foldl_cons, ih, axis_step_effects_no_dbus]

/-- C9 (the code contradicts the claim at the show-desktop button).  First
part: with both output collaborators absent, a motion sample produces no
emitter or backend effect at all — the uinput guard (line 761) and the
NULL check inside `dbus_call_kwin` (line 235) hold.  Second part: a press
of a button mapped to `show_desktop` (default button 1) still produces a
`dbus_connection_send` call through the absent D-Bus handle (lines
778-792 have no NULL check), while the `overview` action (default button
0) is correctly suppressed. -/
theorem c9_absent_backend_show_desktop :
    (∀ (c : Config) (axes : Fin 6 → ℤ) (sacc : ScrollAcc) (last now : ℤ),
        (process_motion c false false axes sacc last now).2.2 = [])
    ∧ (process_button config_defaults false false 1 true).1
        = [Effect.dbusSend "showDesktop" true]
    ∧ (process_button config_defaults false false 0 true).1 = [] := by
  refine ⟨?_, ?_, ?_⟩
  · intro c axes sacc last now
    unfold process_motion
    rw [if_neg Bool.false_ne_true]
    exact axis_fold_effects_no_dbus c now axes (List.finRange 6) (sacc, last, [])
  · decide
  · decide

/-- C10.  Button-mapping keys go through `atoi`: a non-numeric key such as
`"foo"` converts to 0 and therefore overwrites the action at button 0
(the defaults map button 0 to `overview`; after parsing the mapping
`{"foo": "show_desktop"}` button 0 is `show_desktop`); keys converting
outside `[0, 16)` leave the whole table unchanged; no key can fail to
parse, since every entry either overwrites one slot or is ignored. -/
theorem c10_button_mapping_keys :
    atoi "foo" = 0
    ∧ (∀ (m : Fin 16 → BtnAct) (v : String),
        apply_btn_entry m ("foo", v) 0 = parse_btn_action v)
    ∧ ((parse_profile_obj obj_foo (some config_defaults)).btn_map 0 = BtnAct.show_desktop
        ∧ config_defaults.btn_map 0 = BtnAct.overview)
    ∧ (∀ (m : Fin 16 → BtnAct) (k v : String), atoi k < 0 ∨ 16 ≤ atoi k →
        apply_btn_entry m (k, v) = m) := by
  refine ⟨by decide, ?_, ⟨by decide, by decide⟩, ?_⟩
  · intro m v
    have hfoo : atoi ("foo", v).1 = 0 := by
      show atoi "foo" = 0
      decide
    unfold apply_btn_entry
    rw [hfoo]
    norm_num
  · intro m k v h
    have hk : atoi (k, v).1 = atoi k := rfl
    unfold apply_btn_entry
    rw [hk, if_neg ?hneg]
    case hneg =>
      intro hc
      rcases h with h1 | h1 <;> omega

/-- C10 witness: the numeric key `"99"` is out of range and leaves the
default button table unchanged. -/
theorem c10_button_mapping_keys_witness :
    apply_btn_entry config_defaults.btn_map ("99", "overview") = config_defaults.btn_map :=
  c10_button_mapping_keys.2.2.2 config_defaults.btn_map "99" "overview" (by decide)

end Spacemouse
